import Mathlib

/-!
Shallow embedding of `src/components/FindGoofyGame.tsx` (the "Find Goofy"
browser minigame) and proofs about its round/level state machine.

The component is single-threaded and event driven.  Each user or timer
event runs its handler, after which React re-renders and runs the two
`useEffect` blocks (the level-completion check and the game-over effect).
We model one full event as handler followed by the two effects, in source
order.  `Math.random()` is modelled as an injectable stream `rand : Nat → ℚ`
consumed left to right; `setInterval`/`clearInterval` are modelled by a set
of live timer ids plus the `timerRef` cell; `localStorage` is modelled as
the optional string stored under the single key used by the component, and
the JavaScript `NaN` that `parseInt` can produce is modelled as `none`.
-/

namespace FindGoofy

set_option maxRecDepth 100000
set_option maxHeartbeats 1000000

/-- Difficulty tier, the `'easy' | 'medium' | 'hard'` union in the source. -/
inductive Difficulty where
  | easy
  | medium
  | hard
  deriving DecidableEq, Repr

/-- One entry of the `DIFFICULTIES` table. -/
structure DifficultyConfig where
  totalCharacters : ℕ
  goofyCount : ℕ
  deriving DecidableEq, Repr

/-- The `DIFFICULTIES` table of the source. -/
def DIFFICULTIES : Difficulty → DifficultyConfig
  | .easy => ⟨20, 3⟩
  | .medium => ⟨40, 5⟩
  | .hard => ⟨60, 7⟩

/-- The `GAME_DURATION` constant (60 seconds per level). -/
def GAME_DURATION : ℕ := 60

/-- The `CHARACTER_EMOJIS` palette for non-target entities. -/
def CHARACTER_EMOJIS : List String :=
  ["👤", "🧑", "👩", "👨", "🧓", "👱", "👴", "👵", "🧑‍🦲", "👨‍🦱"]

/-- The `GOOFY_EMOJI` glyph shared by all target entities. -/
def GOOFY_EMOJI : String := "🤪"

/-- The `Character` interface of the source. -/
structure Character where
  id : String
  x : ℚ
  y : ℚ
  isGoofy : Bool
  isFound : Bool
  emoji : String
  deriving DecidableEq, Repr

/-- The `GameState` interface of the source.  The score is an integer so
that the `Math.max(0, score - 25)` clamp is represented explicitly. -/
structure GameState where
  score : ℤ
  timeLeft : ℕ
  gameStarted : Bool
  gameOver : Bool
  difficulty : Difficulty
  level : ℕ
  deriving DecidableEq, Repr

/-- Value of a character as a digit in the given radix, `none` when the
character is not a digit of that radix (mirrors `parseInt` digit scan). -/
def digitValue (radix : ℕ) (c : Char) : Option ℕ :=
  let v : ℕ :=
    if '0' ≤ c ∧ c ≤ '9' then c.toNat - '0'.toNat
    else if 'a' ≤ c ∧ c ≤ 'z' then c.toNat - 'a'.toNat + 10
    else if 'A' ≤ c ∧ c ≤ 'Z' then c.toNat - 'A'.toNat + 10
    else radix + 1
  if v < radix then some v else none

/-- Characters skipped by `parseInt` before the number (common whitespace). -/
def isJsWhitespace (c : Char) : Bool :=
  c = ' ' || c = '\t' || c = '\n' || c = '\r'

/-- JavaScript `parseInt(s)` (no radix argument): skip leading whitespace,
optional sign, optional `0x`/`0X` hex prefix, then the maximal prefix of
digits of the detected radix; `none` models the `NaN` returned when no
digit is found. -/
def jsParseInt (s : String) : Option ℤ :=
  let cs := s.data.dropWhile isJsWhitespace
  let sign : ℤ := if cs.head? = some '-' then -1 else 1
  let cs1 := if cs.head? = some '-' || cs.head? = some '+' then cs.tail else cs
  let rc : ℕ × List Char :=
    match cs1 with
    | '0' :: 'x' :: rest => (16, rest)
    | '0' :: 'X' :: rest => (16, rest)
    | _ => (10, cs1)
  let ds := rc.2.takeWhile fun c => (digitValue rc.1 c).isSome
  if ds.isEmpty then none
  else some (sign * ((ds.foldl (fun acc c => acc * rc.1 + (digitValue rc.1 c).getD 0) 0 : ℕ) : ℤ))

/-- JavaScript `v || d` for a possibly-absent string: `null` and the empty
string are falsy and fall back to the default. -/
def jsOrDefault (v : Option String) (d : String) : String :=
  match v with
  | none => d
  | some s => if s = "" then d else s

/-- The `useState` initializer of `highScore`:
`parseInt(localStorage.getItem('findGoofyHighScore') || '0')`.
`none` models `NaN`. -/
def readHighScore (v : Option String) : Option ℤ :=
  jsParseInt (jsOrDefault v "0")

/-- JavaScript `a > b` where `b` may be `NaN` (modelled `none`): every
comparison with `NaN` is false. -/
def jsGt (a : ℤ) : Option ℤ → Bool
  | none => false
  | some b => decide (b < a)

/-- Target count for a level: `Math.min(config.goofyCount + Math.floor((level - 1) / 2), 12)`. -/
def goofyTargetCount (d : Difficulty) (level : ℕ) : ℕ :=
  min ((DIFFICULTIES d).goofyCount + (level - 1) / 2) 12

/-- Total entity count for a level: `Math.min(config.totalCharacters + (level - 1) * 5, 80)`. -/
def totalCharacterCount (d : Difficulty) (level : ℕ) : ℕ :=
  min ((DIFFICULTIES d).totalCharacters + (level - 1) * 5) 80

/-- The i-th Goofy character pushed by `generateCharacters`; `base` is the
index of the next unconsumed `Math.random()` draw, each Goofy consumes two
draws (x then y). -/
def goofyChar (rand : ℕ → ℚ) (base i : ℕ) : Character :=
  { id := "goofy-" ++ toString i
    x := rand (base + 2 * i) * 85 + 5
    y := rand (base + 2 * i + 1) * 75 + 15
    isGoofy := true
    isFound := false
    emoji := GOOFY_EMOJI }

/-- The i-th regular character pushed by `generateCharacters`; consumes
three draws (x, y, emoji index). -/
def regularChar (rand : ℕ → ℚ) (base i : ℕ) : Character :=
  { id := "char-" ++ toString i
    x := rand (base + 3 * i) * 85 + 5
    y := rand (base + 3 * i + 1) * 75 + 15
    isGoofy := false
    isFound := false
    emoji := CHARACTER_EMOJIS.getD
      (Rat.floor (rand (base + 3 * i + 2) * (CHARACTER_EMOJIS.length : ℚ))).toNat "" }

/-- `generateCharacters(difficulty, level)`: `goofyCount` Goofy characters
followed by `totalCharacters - goofyCount` regular ones, all with
`isFound := false`.  `base` is the index of the first unconsumed random
draw of the session stream. -/
def generateCharacters (rand : ℕ → ℚ) (base : ℕ) (d : Difficulty) (level : ℕ) : List Character :=
  (List.range (goofyTargetCount d level)).map (goofyChar rand base) ++
    (List.range (totalCharacterCount d level - goofyTargetCount d level)).map
      (regularChar rand (base + 2 * goofyTargetCount d level))

/-- Number of `Math.random()` draws one call to `generateCharacters` makes. -/
def randConsumed (d : Difficulty) (level : ℕ) : ℕ :=
  2 * goofyTargetCount d level +
    3 * (totalCharacterCount d level - goofyTargetCount d level)

/-- The whole component state: React state plus the timer resources.
`live` is the set (list without duplicates) of interval ids that have been
created and not yet cancelled, `timerRef` the mutable ref cell, `nextId` a
fresh-id counter, `randUsed` the number of random draws consumed so far,
`store` the `localStorage` value under `'findGoofyHighScore'`. -/
structure Machine where
  gameState : GameState
  characters : List Character
  scopeVisible : Bool
  highScore : Option ℤ
  store : Option String
  timerRef : Option ℕ
  live : List ℕ
  nextId : ℕ
  randUsed : ℕ
  deriving DecidableEq, Repr

/-- Initial `useState` value of `gameState`. -/
def initialGameState : GameState :=
  { score := 0
    timeLeft := GAME_DURATION
    gameStarted := false
    gameOver := false
    difficulty := .medium
    level := 1 }

/-- The component right after mount, with `v` the persisted store value. -/
def initialMachine (v : Option String) : Machine :=
  { gameState := initialGameState
    characters := []
    scopeVisible := false
    highScore := readHighScore v
    store := v
    timerRef := none
    live := []
    nextId := 0
    randUsed := 0 }

/-- `clearInterval(timerRef.current)`: removes the referenced id from the
live set (a no-op when the ref is unset or the timer already cancelled). -/
def clearCurrentInterval (m : Machine) : Machine :=
  { m with live := match m.timerRef with
      | some t => m.live.erase t
      | none => m.live }

/-- Shared body of `startGame` and `nextLevel` (the two callbacks are
textually identical in the source apart from the start-of-mission toast):
generate characters for the current difficulty and level, enter the active
state with a full timer, show the scope, and install a fresh interval. -/
def beginRound (rand : ℕ → ℚ) (m : Machine) : Machine :=
  { m with
    characters := generateCharacters rand m.randUsed m.gameState.difficulty m.gameState.level
    gameState := { m.gameState with gameStarted := true, gameOver := false, timeLeft := GAME_DURATION }
    scopeVisible := true
    timerRef := some m.nextId
    live := m.nextId :: m.live
    nextId := m.nextId + 1
    randUsed := m.randUsed + randConsumed m.gameState.difficulty m.gameState.level }

/-- `startGame` callback. -/
def startGame (rand : ℕ → ℚ) (m : Machine) : Machine := beginRound rand m

/-- `nextLevel` callback (same body as `startGame` in the source). -/
def nextLevel (rand : ℕ → ℚ) (m : Machine) : Machine := beginRound rand m

/-- One firing of the interval callback installed by
`startGame`/`nextLevel`, for the timer with id `t`.  A cancelled timer
(`t ∉ live`) never fires, hence the outer guard.  When `timeLeft <= 1` the
callback clears `timerRef.current` and sets `timeLeft := 0, gameOver := true`;
otherwise it decrements `timeLeft`. -/
def tickHandler (t : ℕ) (m : Machine) : Machine :=
  if t ∈ m.live then
    if m.gameState.timeLeft ≤ 1 then
      let m1 := clearCurrentInterval m
      { m1 with gameState := { m1.gameState with timeLeft := 0, gameOver := true } }
    else
      { m with gameState := { m.gameState with timeLeft := m.gameState.timeLeft - 1 } }
  else m

/-- The `characters.map` body of `handleCharacterClick`, threading the
`setGameState` functional updates it queues in list order (each updater
spreads the previous state and changes only `score`, so only the score is
threaded; `level` is read-only during one click): a matching not-yet-found
Goofy is marked found and adds `100 * level` to the score; a matching
not-yet-found non-Goofy subtracts 25 clamped at 0 (`Math.max(0, ...)`) and
is returned unchanged; everything else is returned unchanged. -/
def clickFold (cid : String) (level : ℕ) : ℤ → List Character → ℤ × List Character
  | score, [] => (score, [])
  | score, c :: rest =>
    if c.id == cid && !c.isFound then
      if c.isGoofy then
        let r := clickFold cid level (score + 100 * (level : ℤ)) rest
        (r.1, { c with isFound := true } :: r.2)
      else
        let r := clickFold cid level (max 0 (score - 25)) rest
        (r.1, c :: r.2)
    else
      let r := clickFold cid level score rest
      (r.1, c :: r.2)

/-- `handleCharacterClick(characterId)`: a no-op unless the round is
active, otherwise the map over the character array described above. -/
def handleCharacterClick (cid : String) (m : Machine) : Machine :=
  if !m.gameState.gameStarted || m.gameState.gameOver then m
  else
    let r := clickFold cid m.gameState.level m.gameState.score m.characters
    { m with gameState := { m.gameState with score := r.1 }, characters := r.2 }

/-- The `allGoofysFound` condition of the level-completion effect:
`characters.length > 0 && characters.filter(isGoofy).every(isFound)`. -/
def allGoofysFound (chars : List Character) : Bool :=
  !chars.isEmpty && (chars.filter fun c => c.isGoofy).all fun c => c.isFound

/-- The level-completion `useEffect`: while active, if all Goofys are
found, clear the interval, add the time bonus `timeLeft * 10`, increment
the level, set `gameOver`, and persist the new score when it beats the
stored high score. -/
def levelCompletionEffect (m : Machine) : Machine :=
  if !m.gameState.gameStarted || m.gameState.gameOver then m
  else if allGoofysFound m.characters then
    let timeBonus : ℤ := (m.gameState.timeLeft : ℤ) * 10
    let newScore : ℤ := m.gameState.score + timeBonus
    let m1 := clearCurrentInterval m
    let m2 := { m1 with gameState :=
      { m1.gameState with score := newScore, level := m1.gameState.level + 1, gameOver := true } }
    if jsGt newScore m.highScore then
      { m2 with highScore := some newScore, store := some (toString newScore) }
    else m2
  else m

/-- The game-over `useEffect`: when `gameOver` is set, hide the scope and
clear the interval (the timeout toast is cosmetic and not modelled). -/
def gameOverEffect (m : Machine) : Machine :=
  if m.gameState.gameOver then clearCurrentInterval { m with scopeVisible := false } else m

/-- `resetGame` callback: clear the interval, return to the idle state
(score 0, full timer, level 1, difficulty kept), drop all characters, hide
the scope. -/
def resetGame (m : Machine) : Machine :=
  let m1 := clearCurrentInterval m
  { m1 with
    gameState := { score := 0
                   timeLeft := GAME_DURATION
                   gameStarted := false
                   gameOver := false
                   difficulty := m.gameState.difficulty
                   level := 1 }
    characters := []
    scopeVisible := false }

/-- The difficulty `select` onChange handler. -/
def setDifficultyHandler (d : Difficulty) (m : Machine) : Machine :=
  { m with gameState := { m.gameState with difficulty := d } }

/-- The discrete events the component reacts to. -/
inductive Event where
  | start
  | nextLevelEv
  | reset
  | click (cid : String)
  | tick (t : ℕ)
  | setDifficulty (d : Difficulty)

/-- Dispatch an event to its handler. -/
def handle (rand : ℕ → ℚ) : Event → Machine → Machine
  | .start => startGame rand
  | .nextLevelEv => nextLevel rand
  | .reset => resetGame
  | .click cid => handleCharacterClick cid
  | .tick t => tickHandler t
  | .setDifficulty d => setDifficultyHandler d

/-- One full event: handler, then the two `useEffect` blocks in source
order, run to quiescence (the level-completion effect sets `gameOver`
whenever it fires, so it can fire at most once, after which the game-over
effect is the only one that still acts, and it is idempotent). -/
def step (rand : ℕ → ℚ) (e : Event) (m : Machine) : Machine :=
  gameOverEffect (levelCompletionEffect (handle rand e m))

/-- When the UI lets an event reach its handler: `startGame` is on the
Start button (shown only before a round has ever started), `nextLevel` on
the Next Level button (after a won round), `resetGame` on Restart/Try
Again (after a finished round), the difficulty selector is disabled once a
round has started, and clicks and timer callbacks are guarded inside their
handlers. -/
def Enabled : Event → Machine → Prop
  | .start, m => m.gameState.gameStarted = false
  | .nextLevelEv, m =>
      m.gameState.gameStarted = true ∧ m.gameState.gameOver = true ∧ 0 < m.gameState.timeLeft
  | .reset, m => m.gameState.gameStarted = true ∧ m.gameState.gameOver = true
  | .click _, _ => True
  | .tick _, _ => True
  | .setDifficulty _, m => m.gameState.gameStarted = false

/-- States reachable in one session from a mount over any stored value. -/
inductive Reachable (rand : ℕ → ℚ) : Machine → Prop where
  | init (v : Option String) : Reachable rand (initialMachine v)
  | next {m : Machine} {e : Event} :
      Reachable rand m → Enabled e m → Reachable rand (step rand e m)

/-- Fold a list of events through `step`. -/
def runEvents (rand : ℕ → ℚ) (m : Machine) (es : List Event) : Machine :=
  es.foldl (fun mm e => step rand e mm) m

lemma runEvents_cons (rand : ℕ → ℚ) (m : Machine) (e : Event) (es : List Event) :
    runEvents rand m (e :: es) = runEvents rand (step rand e m) es := rfl

/-- A concrete deterministic random stream used for concrete runs. -/
def r0 : ℕ → ℚ := fun _ => 0

/-! Section: Basic lemmas about the effects and the timer bookkeeping -/

lemma clearCurrentInterval_gameState (m : Machine) :
    (clearCurrentInterval m).gameState = m.gameState := rfl

lemma clearCurrentInterval_timerRef (m : Machine) :
    (clearCurrentInterval m).timerRef = m.timerRef := rfl

lemma clearCurrentInterval_live_length (m : Machine) :
    (clearCurrentInterval m).live.length ≤ m.live.length := by
  unfold clearCurrentInterval
  cases m.timerRef with
  | none => exact le_rfl
  | some t => exact (List.erase_sublist t m.live).length_le

lemma clearCurrentInterval_live_subset (m : Machine) :
    ∀ t ∈ (clearCurrentInterval m).live, t ∈ m.live := by
  unfold clearCurrentInterval
  cases m.timerRef with
  | none => exact fun t ht => ht
  | some u => exact fun t ht => List.mem_of_mem_erase ht

/-- When at most one timer is live and it is the one the ref points at,
`clearInterval(timerRef.current)` leaves no live timer. -/
lemma clearCurrentInterval_live_nil (m : Machine) (h1 : m.live.length ≤ 1)
    (h2 : ∀ t ∈ m.live, m.timerRef = some t) :
    (clearCurrentInterval m).live = [] := by
  unfold clearCurrentInterval
  match hl : m.live, h1 with
  | [], _ =>
    cases m.timerRef <;> simp
  | [t0], _ =>
    have ht : m.timerRef = some t0 := h2 t0 (by rw [hl]; exact List.mem_singleton_self t0)
    rw [ht]
    simp
  | t0 :: t1 :: rest, h1 => simp [hl] at h1

lemma gameOverEffect_gameState (m : Machine) :
    (gameOverEffect m).gameState = m.gameState := by
  unfold gameOverEffect
  split <;> rfl

lemma gameOverEffect_characters (m : Machine) :
    (gameOverEffect m).characters = m.characters := by
  unfold gameOverEffect
  split <;> rfl

lemma gameOverEffect_store (m : Machine) :
    (gameOverEffect m).store = m.store := by
  unfold gameOverEffect
  split <;> rfl

lemma gameOverEffect_highScore (m : Machine) :
    (gameOverEffect m).highScore = m.highScore := by
  unfold gameOverEffect
  split <;> rfl

lemma gameOverEffect_timerRef (m : Machine) :
    (gameOverEffect m).timerRef = m.timerRef := by
  unfold gameOverEffect
  split <;> rfl

lemma levelCompletionEffect_of_not_started (m : Machine)
    (h : m.gameState.gameStarted = false) : levelCompletionEffect m = m := by
  unfold levelCompletionEffect
  simp [h]

lemma levelCompletionEffect_of_over (m : Machine)
    (h : m.gameState.gameOver = true) : levelCompletionEffect m = m := by
  unfold levelCompletionEffect
  simp [h]

lemma levelCompletionEffect_of_not_allFound (m : Machine)
    (h : allGoofysFound m.characters = false) : levelCompletionEffect m = m := by
  unfold levelCompletionEffect
  split
  · rfl
  · simp [h]

/-- Full description of the level-completion effect when it fires. -/
lemma levelCompletionEffect_fire (m : Machine)
    (h1 : m.gameState.gameStarted = true) (h2 : m.gameState.gameOver = false)
    (h3 : allGoofysFound m.characters = true) :
    (levelCompletionEffect m).gameState.gameOver = true ∧
    (levelCompletionEffect m).gameState.gameStarted = true ∧
    (levelCompletionEffect m).gameState.timeLeft = m.gameState.timeLeft ∧
    (levelCompletionEffect m).gameState.score =
      m.gameState.score + (m.gameState.timeLeft : ℤ) * 10 ∧
    (levelCompletionEffect m).gameState.level = m.gameState.level + 1 ∧
    (levelCompletionEffect m).gameState.difficulty = m.gameState.difficulty ∧
    (levelCompletionEffect m).characters = m.characters ∧
    (levelCompletionEffect m).live = (clearCurrentInterval m).live ∧
    (levelCompletionEffect m).timerRef = m.timerRef ∧
    (levelCompletionEffect m).store =
      (if jsGt (m.gameState.score + (m.gameState.timeLeft : ℤ) * 10) m.highScore then
        some (toString (m.gameState.score + (m.gameState.timeLeft : ℤ) * 10)) else m.store) := by
  unfold levelCompletionEffect
  simp only [h1, h2, h3, Bool.not_true, Bool.false_or, Bool.false_eq_true, if_false, if_true]
  split <;> simp [clearCurrentInterval, h1]

/-! Section: Lemmas about the click handler -/

lemma clickFold_score_nonneg (cid : String) (lv : ℕ) (s : ℤ) (l : List Character)
    (h : 0 ≤ s) : 0 ≤ (clickFold cid lv s l).1 := by
  induction l generalizing s with
  | nil => exact h
  | cons c rest ih =>
    unfold clickFold
    split
    · split
      · exact ih _ (by positivity)
      · exact ih _ (le_max_left 0 _)
    · exact ih _ h

/-- A click on an id that no character carries, or whose character is
already found, changes nothing. -/
lemma clickFold_noop (cid : String) (lv : ℕ) (s : ℤ) (l : List Character)
    (h : ∀ c ∈ l, c.id = cid → c.isFound = true) :
    clickFold cid lv s l = (s, l) := by
  induction l with
  | nil => rfl
  | cons c rest ih =>
    unfold clickFold
    have hguard : (c.id == cid && !c.isFound) = false := by
      by_cases hc : c.id = cid
      · simp [h c (List.mem_cons_self c rest) hc]
      · simp [hc]
    rw [hguard]
    simp [ih fun d hd => h d (List.mem_cons_of_mem c hd)]

lemma clickFold_no_id (cid : String) (lv : ℕ) (s : ℤ) (l : List Character)
    (h : ∀ c ∈ l, c.id ≠ cid) :
    clickFold cid lv s l = (s, l) := by
  apply clickFold_noop
  intro c hc hid
  exact absurd hid (h c hc)

/-- Clicking a not-yet-found Goofy whose id is unique in the list: the
score gains `100 * level` and exactly that character is marked found. -/
lemma clickFold_goofy (cid : String) (lv : ℕ) (s : ℤ) (l : List Character)
    (hnd : (l.map Character.id).Nodup) (c : Character) (hc : c ∈ l)
    (hid : c.id = cid) (hnf : c.isFound = false) (hg : c.isGoofy = true) :
    clickFold cid lv s l =
      (s + 100 * (lv : ℤ),
        l.map fun d => if d.id = cid then { d with isFound := true } else d) := by
  induction l generalizing s with
  | nil => cases hc
  | cons a rest ih =>
    rw [List.map_cons, List.nodup_cons] at hnd
    rcases List.mem_cons.mp hc with rfl | hcr
    · have hrest : ∀ d ∈ rest, d.id ≠ cid := by
        intro d hd hdc
        apply hnd.1
        have hcd : c.id = d.id := hid.trans hdc.symm
        rw [hcd]
        exact List.mem_map_of_mem Character.id hd
      have hmap : rest.map (fun d => if d.id = cid then { d with isFound := true } else d) =
          rest := by
        conv_rhs => rw [← List.map_id rest]
        apply List.map_congr_left
        intro d hd
        simp [hrest d hd]
      simp [clickFold, hid, hnf, hg,
        clickFold_no_id cid lv (s + 100 * (lv : ℤ)) rest hrest, hmap]
    · have hane : a.id ≠ cid := by
        intro hac
        apply hnd.1
        have hac2 : a.id = c.id := hac.trans hid.symm
        rw [hac2, hid]
        exact hid ▸ List.mem_map_of_mem Character.id hcr
      simp [clickFold, hane, ih s hnd.2 hcr]

/-- Clicking a not-yet-found non-Goofy whose id is unique in the list: the
score drops by 25, clamped at 0, and no character changes. -/
lemma clickFold_wrong (cid : String) (lv : ℕ) (s : ℤ) (l : List Character)
    (hnd : (l.map Character.id).Nodup) (c : Character) (hc : c ∈ l)
    (hid : c.id = cid) (hnf : c.isFound = false) (hg : c.isGoofy = false) :
    clickFold cid lv s l = (max 0 (s - 25), l) := by
  induction l generalizing s with
  | nil => cases hc
  | cons a rest ih =>
    rw [List.map_cons, List.nodup_cons] at hnd
    rcases List.mem_cons.mp hc with rfl | hcr
    · have hrest : ∀ d ∈ rest, d.id ≠ cid := by
        intro d hd hdc
        apply hnd.1
        have hcd : c.id = d.id := hid.trans hdc.symm
        rw [hcd]
        exact List.mem_map_of_mem Character.id hd
      simp [clickFold, hid, hnf, hg, clickFold_no_id cid lv (max 0 (s - 25)) rest hrest]
    · have hane : a.id ≠ cid := by
        intro hac
        apply hnd.1
        have hac2 : a.id = c.id := hac.trans hid.symm
        rw [hac2, hid]
        exact hid ▸ List.mem_map_of_mem Character.id hcr
      simp [clickFold, hane, ih s hnd.2 hcr]

/-! Section: Lemmas about the round generator -/

lemma goofyTargetCount_pos (d : Difficulty) (lv : ℕ) : 1 ≤ goofyTargetCount d lv := by
  cases d <;> simp [goofyTargetCount, DIFFICULTIES] <;> omega

lemma goofyTargetCount_le_total (d : Difficulty) (lv : ℕ) :
    goofyTargetCount d lv ≤ totalCharacterCount d lv := by
  cases d <;> simp [goofyTargetCount, totalCharacterCount, DIFFICULTIES] <;> omega

lemma generateCharacters_isFound (rand : ℕ → ℚ) (b : ℕ) (d : Difficulty) (lv : ℕ) :
    ∀ c ∈ generateCharacters rand b d lv, c.isFound = false := by
  intro c hc
  rcases List.mem_append.mp hc with hm | hm <;>
    obtain ⟨i, _, rfl⟩ := List.mem_map.mp hm <;> rfl

lemma generateCharacters_length (rand : ℕ → ℚ) (b : ℕ) (d : Difficulty) (lv : ℕ) :
    (generateCharacters rand b d lv).length = totalCharacterCount d lv := by
  have h := goofyTargetCount_le_total d lv
  simp [generateCharacters]
  omega

lemma generateCharacters_goofy_length (rand : ℕ → ℚ) (b : ℕ) (d : Difficulty) (lv : ℕ) :
    ((generateCharacters rand b d lv).filter fun c => c.isGoofy).length =
      goofyTargetCount d lv := by
  unfold generateCharacters
  rw [List.filter_append]
  have h1 : ((List.range (goofyTargetCount d lv)).map (goofyChar rand b)).filter
      (fun c => c.isGoofy) = (List.range (goofyTargetCount d lv)).map (goofyChar rand b) := by
    apply List.filter_eq_self.mpr
    intro c hc
    obtain ⟨i, _, rfl⟩ := List.mem_map.mp hc
    rfl
  have h2 : ((List.range (totalCharacterCount d lv - goofyTargetCount d lv)).map
      (regularChar rand (b + 2 * goofyTargetCount d lv))).filter (fun c => c.isGoofy) = [] := by
    rw [List.filter_eq_nil_iff]
    intro c hc
    obtain ⟨i, _, rfl⟩ := List.mem_map.mp hc
    simp [regularChar]
  rw [h1, h2]
  simp

/-- Freshly generated characters always include the unfound `goofy-0`, so
the win condition is false right after generation. -/
lemma allGoofysFound_generateCharacters (rand : ℕ → ℚ) (b : ℕ) (d : Difficulty) (lv : ℕ) :
    allGoofysFound (generateCharacters rand b d lv) = false := by
  have hmem : goofyChar rand b 0 ∈ generateCharacters rand b d lv := by
    apply List.mem_append_left
    exact List.mem_map_of_mem _ (List.mem_range.mpr (goofyTargetCount_pos d lv))
  unfold allGoofysFound
  have hall : ((generateCharacters rand b d lv).filter fun c => c.isGoofy).all
      (fun c => c.isFound) = false := by
    rw [List.all_eq_false]
    refine ⟨goofyChar rand b 0, List.mem_filter.mpr ⟨hmem, rfl⟩, by simp [goofyChar]⟩
  simp [hall]

/-! Section: The timer invariant -/

/-- Timer bookkeeping invariant of every reachable state: at most one
interval is live, a live interval is the one `timerRef` points at, and a
live interval exists only while a round is active. -/
def TimerInv (m : Machine) : Prop :=
  m.live.length ≤ 1 ∧ (∀ t ∈ m.live, m.timerRef = some t) ∧
    (m.live ≠ [] → m.gameState.gameStarted = true ∧ m.gameState.gameOver = false)

lemma timerInv_levelCompletionEffect (m : Machine) (h : TimerInv m) :
    TimerInv (levelCompletionEffect m) := by
  obtain ⟨h1, h2, h3⟩ := h
  by_cases hg1 : m.gameState.gameStarted = false
  · rw [levelCompletionEffect_of_not_started m hg1]
    exact ⟨h1, h2, h3⟩
  by_cases hg2 : m.gameState.gameOver = true
  · rw [levelCompletionEffect_of_over m hg2]
    exact ⟨h1, h2, h3⟩
  by_cases hg3 : allGoofysFound m.characters = true
  · have hfire := levelCompletionEffect_fire m (by simpa using hg1) (by simpa using hg2) hg3
    have hnil : (levelCompletionEffect m).live = [] := by
      rw [hfire.2.2.2.2.2.2.2.1]
      exact clearCurrentInterval_live_nil m h1 h2
    refine ⟨?_, ?_, ?_⟩ <;> rw [hnil] <;> simp
  · rw [levelCompletionEffect_of_not_allFound m (by simpa using hg3)]
    exact ⟨h1, h2, h3⟩

lemma timerInv_gameOverEffect (m : Machine) (h : TimerInv m) :
    TimerInv (gameOverEffect m) := by
  obtain ⟨h1, h2, h3⟩ := h
  unfold gameOverEffect
  split
  · rename_i hov
    have hnil : (clearCurrentInterval { m with scopeVisible := false }).live = [] :=
      clearCurrentInterval_live_nil _ h1 h2
    refine ⟨?_, ?_, ?_⟩ <;> rw [hnil] <;> simp
  · exact ⟨h1, h2, h3⟩

lemma timerInv_handle (rand : ℕ → ℚ) (e : Event) (m : Machine) (h : TimerInv m)
    (he : Enabled e m) : TimerInv (handle rand e m) := by
  obtain ⟨h1, h2, h3⟩ := h
  cases e with
  | start =>
    have hlive : m.live = [] := by
      by_contra hne
      have hst := (h3 hne).1
      rw [he] at hst
      exact Bool.false_ne_true hst
    refine ⟨?_, ?_, ?_⟩ <;> simp [handle, startGame, beginRound, hlive]
  | nextLevelEv =>
    have hlive : m.live = [] := by
      by_contra hne
      have hov := (h3 hne).2
      rw [he.2.1] at hov
      exact Bool.noConfusion hov
    refine ⟨?_, ?_, ?_⟩ <;> simp [handle, nextLevel, beginRound, hlive]
  | reset =>
    have hnil := clearCurrentInterval_live_nil m h1 h2
    refine ⟨?_, ?_, ?_⟩ <;> simp only [handle, resetGame] <;> rw [hnil] <;> simp
  | click cid =>
    show TimerInv (handleCharacterClick cid m)
    unfold handleCharacterClick
    split
    · exact ⟨h1, h2, h3⟩
    · exact ⟨h1, h2, h3⟩
  | tick t =>
    show TimerInv (tickHandler t m)
    unfold tickHandler
    split
    · split
      · have hnil := clearCurrentInterval_live_nil m h1 h2
        refine ⟨?_, ?_, ?_⟩ <;> simp only [] <;> rw [hnil] <;> simp
      · exact ⟨h1, h2, h3⟩
    · exact ⟨h1, h2, h3⟩
  | setDifficulty d => exact ⟨h1, h2, h3⟩

lemma timerInv_step (rand : ℕ → ℚ) (e : Event) (m : Machine) (h : TimerInv m)
    (he : Enabled e m) : TimerInv (step rand e m) :=
  timerInv_gameOverEffect _ (timerInv_levelCompletionEffect _ (timerInv_handle rand e m h he))

lemma timerInv_initialMachine (v : Option String) : TimerInv (initialMachine v) := by
  refine ⟨?_, ?_, ?_⟩ <;> simp [initialMachine]

lemma reachable_timerInv (rand : ℕ → ℚ) (m : Machine) (h : Reachable rand m) : TimerInv m := by
  induction h with
  | init v => exact timerInv_initialMachine v
  | next hr he ih => exact timerInv_step _ _ _ ih he

/-! Section: Step equations -/

/-- A full `start` event is exactly `beginRound`: right after generation
the characters contain an unfound Goofy, so the level-completion effect
does not fire, and `gameOver` is false, so the game-over effect is inert. -/
lemma step_start_eq (rand : ℕ → ℚ) (m : Machine) :
    step rand Event.start m = beginRound rand m := by
  show gameOverEffect (levelCompletionEffect (beginRound rand m)) = beginRound rand m
  have hlc : levelCompletionEffect (beginRound rand m) = beginRound rand m := by
    apply levelCompletionEffect_of_not_allFound
    exact allGoofysFound_generateCharacters rand _ _ _
  rw [hlc]
  unfold gameOverEffect
  split
  · rename_i hov
    exact absurd hov (by simp [beginRound])
  · rfl

/-- Same for a full `next-level` event. -/
lemma step_nextLevel_eq (rand : ℕ → ℚ) (m : Machine) :
    step rand Event.nextLevelEv m = beginRound rand m := by
  show gameOverEffect (levelCompletionEffect (beginRound rand m)) = beginRound rand m
  have hlc : levelCompletionEffect (beginRound rand m) = beginRound rand m := by
    apply levelCompletionEffect_of_not_allFound
    exact allGoofysFound_generateCharacters rand _ _ _
  rw [hlc]
  unfold gameOverEffect
  split
  · rename_i hov
    exact absurd hov (by simp [beginRound])
  · rfl

/-- A full `reset` event is exactly `resetGame`: both effects are inert on
the idle state it produces. -/
lemma step_reset_eq (rand : ℕ → ℚ) (m : Machine) :
    step rand Event.reset m = resetGame m := by
  show gameOverEffect (levelCompletionEffect (resetGame m)) = resetGame m
  have hlc : levelCompletionEffect (resetGame m) = resetGame m :=
    levelCompletionEffect_of_not_started _ rfl
  rw [hlc]
  unfold gameOverEffect
  split
  · rename_i hov
    exact absurd hov (by simp [resetGame])
  · rfl

/-! Section: The finished state is frozen -/

/-- Once `gameOver` is set, a tick of a no-longer-live timer and any click
leave the game state untouched. -/
lemma step_gameState_of_over (rand : ℕ → ℚ) (m : Machine)
    (hov : m.gameState.gameOver = true) :
    (∀ t, t ∉ m.live → (step rand (Event.tick t) m).gameState = m.gameState) ∧
    (∀ cid, (step rand (Event.click cid) m).gameState = m.gameState) := by
  constructor
  · intro t ht
    have hh : handle rand (Event.tick t) m = m := by
      show tickHandler t m = m
      unfold tickHandler
      rw [if_neg ht]
    show (gameOverEffect (levelCompletionEffect (handle rand (Event.tick t) m))).gameState =
      m.gameState
    rw [hh, levelCompletionEffect_of_over m hov, gameOverEffect_gameState]
  · intro cid
    have hh : handle rand (Event.click cid) m = m := by
      show handleCharacterClick cid m = m
      unfold handleCharacterClick
      rw [if_pos (by simp [hov])]
    show (gameOverEffect (levelCompletionEffect (handle rand (Event.click cid) m))).gameState =
      m.gameState
    rw [hh, levelCompletionEffect_of_over m hov, gameOverEffect_gameState]

/-- After any full event, an active state never satisfies the win
condition: the level-completion effect inside the same event would have
ended the round. -/
lemma step_active_not_allFound (rand : ℕ → ℚ) (e : Event) (m : Machine)
    (hs : (step rand e m).gameState.gameStarted = true)
    (ho : (step rand e m).gameState.gameOver = false) :
    allGoofysFound (step rand e m).characters = false := by
  unfold step at hs ho ⊢
  rw [gameOverEffect_gameState] at hs ho
  rw [gameOverEffect_characters]
  by_cases hg1 : (handle rand e m).gameState.gameStarted = false
  · rw [levelCompletionEffect_of_not_started _ hg1] at hs
    rw [hg1] at hs
    exact Bool.noConfusion hs
  by_cases hg2 : (handle rand e m).gameState.gameOver = true
  · rw [levelCompletionEffect_of_over _ hg2] at ho
    rw [hg2] at ho
    exact Bool.noConfusion ho
  by_cases hg3 : allGoofysFound (handle rand e m).characters = true
  · have hfire := levelCompletionEffect_fire (handle rand e m)
      (by simpa using hg1) (by simpa using hg2) hg3
    rw [hfire.1] at ho
    exact Bool.noConfusion ho
  · rw [levelCompletionEffect_of_not_allFound _ (by simpa using hg3)]
    simpa using hg3

/-- In every reachable active state the win condition is still open. -/
lemma reachable_active_not_allFound (rand : ℕ → ℚ) (m : Machine) (h : Reachable rand m)
    (hs : m.gameState.gameStarted = true) (ho : m.gameState.gameOver = false) :
    allGoofysFound m.characters = false := by
  induction h with
  | init v => rfl
  | next hr he ih => exact step_active_not_allFound _ _ _ hs ho

/-! Section: Score non-negativity -/

lemma handleCharacterClick_score_nonneg (cid : String) (m : Machine)
    (h : 0 ≤ m.gameState.score) : 0 ≤ (handleCharacterClick cid m).gameState.score := by
  unfold handleCharacterClick
  split
  · exact h
  · exact clickFold_score_nonneg _ _ _ _ h

lemma levelCompletionEffect_score_nonneg (m : Machine) (h : 0 ≤ m.gameState.score) :
    0 ≤ (levelCompletionEffect m).gameState.score := by
  by_cases hg1 : m.gameState.gameStarted = false
  · rw [levelCompletionEffect_of_not_started _ hg1]
    exact h
  by_cases hg2 : m.gameState.gameOver = true
  · rw [levelCompletionEffect_of_over _ hg2]
    exact h
  by_cases hg3 : allGoofysFound m.characters = true
  · rw [(levelCompletionEffect_fire m (by simpa using hg1) (by simpa using hg2) hg3).2.2.2.1]
    omega
  · rw [levelCompletionEffect_of_not_allFound _ (by simpa using hg3)]
    exact h

lemma step_click_score_nonneg (rand : ℕ → ℚ) (cid : String) (m : Machine)
    (h : 0 ≤ m.gameState.score) : 0 ≤ (step rand (Event.click cid) m).gameState.score := by
  show 0 ≤ (gameOverEffect (levelCompletionEffect (handleCharacterClick cid m))).gameState.score
  rw [gameOverEffect_gameState]
  exact levelCompletionEffect_score_nonneg _ (handleCharacterClick_score_nonneg cid m h)

lemma runEvents_clicks_score_nonneg (rand : ℕ → ℚ) (cids : List String) (m : Machine)
    (h : 0 ≤ m.gameState.score) :
    0 ≤ (runEvents rand m (cids.map Event.click)).gameState.score := by
  induction cids generalizing m with
  | nil => exact h
  | cons c rest ih =>
    simp only [List.map_cons, runEvents, List.foldl_cons]
    exact ih _ (step_click_score_nonneg rand c m h)

/-! Section: Reachability helpers -/

/-- Events that are available in every state (clicks and timer callbacks
carry their own guards). -/
lemma reachable_runEvents_free (rand : ℕ → ℚ) (m : Machine) (h : Reachable rand m)
    (es : List Event) (hfree : ∀ e ∈ es, ∀ m' : Machine, Enabled e m') :
    Reachable rand (runEvents rand m es) := by
  induction es generalizing m with
  | nil => exact h
  | cons e rest ih =>
    simp only [runEvents, List.foldl_cons]
    exact ih _ (Reachable.next h (hfree e (List.mem_cons_self e rest) m))
      fun e' he' m' => hfree e' (List.mem_cons_of_mem e he') m'

/-- The over-lost transition and ticks near it never write the store. -/
lemma step_tick_store_of_timeout (rand : ℕ → ℚ) (m : Machine) (t : ℕ)
    (hre : Reachable rand m) (hl : m.gameState.timeLeft ≤ 1) :
    (step rand (Event.tick t) m).store = m.store := by
  show (gameOverEffect (levelCompletionEffect (tickHandler t m))).store = m.store
  rw [gameOverEffect_store]
  by_cases ht : t ∈ m.live
  · have hh : (tickHandler t m).gameState.gameOver = true ∧ (tickHandler t m).store = m.store := by
      unfold tickHandler
      rw [if_pos ht, if_pos hl]
      exact ⟨rfl, rfl⟩
    rw [levelCompletionEffect_of_over _ hh.1, hh.2]
  · have hh : tickHandler t m = m := by
      unfold tickHandler
      rw [if_neg ht]
    rw [hh]
    by_cases hs : m.gameState.gameStarted = true
    · by_cases ho : m.gameState.gameOver = true
      · rw [levelCompletionEffect_of_over _ ho]
      · have hnf := reachable_active_not_allFound rand m hre hs (by simpa using ho)
        rw [levelCompletionEffect_of_not_allFound _ hnf]
    · rw [levelCompletionEffect_of_not_started _ (by simpa using hs)]

lemma gameOverEffect_live_nil (m : Machine) (h : m.live = []) :
    (gameOverEffect m).live = [] := by
  unfold gameOverEffect
  split
  · show (clearCurrentInterval { m with scopeVisible := false }).live = []
    unfold clearCurrentInterval
    cases { m with scopeVisible := false }.timerRef <;> simp [h]
  · exact h

/-- The click handler changes only the score and the character list. -/
lemma handleCharacterClick_frame (cid : String) (m : Machine) :
    (handleCharacterClick cid m).gameState.timeLeft = m.gameState.timeLeft ∧
    (handleCharacterClick cid m).gameState.gameStarted = m.gameState.gameStarted ∧
    (handleCharacterClick cid m).gameState.gameOver = m.gameState.gameOver ∧
    (handleCharacterClick cid m).gameState.level = m.gameState.level ∧
    (handleCharacterClick cid m).live = m.live ∧
    (handleCharacterClick cid m).timerRef = m.timerRef := by
  unfold handleCharacterClick
  split <;> simp

/-- A click that completes the target set ends the round within the same
event: the level-completion effect fires right after the handler. -/
lemma step_click_win (rand : ℕ → ℚ) (m : Machine) (cid : String) (hre : Reachable rand m)
    (hs : m.gameState.gameStarted = true) (ho : m.gameState.gameOver = false)
    (hwin : allGoofysFound (handleCharacterClick cid m).characters = true) :
    (step rand (Event.click cid) m).gameState.gameOver = true ∧
    (step rand (Event.click cid) m).gameState.timeLeft = m.gameState.timeLeft ∧
    (step rand (Event.click cid) m).gameState.score =
      (handleCharacterClick cid m).gameState.score + (m.gameState.timeLeft : ℤ) * 10 ∧
    (step rand (Event.click cid) m).live = [] := by
  obtain ⟨hf1, hf2, hf3, hf4, hf5, hf6⟩ := handleCharacterClick_frame cid m
  obtain ⟨h1, h2, h3⟩ := reachable_timerInv rand m hre
  have hns : (handleCharacterClick cid m).gameState.gameStarted = true := by rw [hf2, hs]
  have hno : (handleCharacterClick cid m).gameState.gameOver = false := by rw [hf3, ho]
  have hfire := levelCompletionEffect_fire (handleCharacterClick cid m) hns hno hwin
  have hinv1 : (handleCharacterClick cid m).live.length ≤ 1 := by rw [hf5]; exact h1
  have hinv2 : ∀ t ∈ (handleCharacterClick cid m).live,
      (handleCharacterClick cid m).timerRef = some t := by
    rw [hf5, hf6]
    exact h2
  have hlcnil : (levelCompletionEffect (handleCharacterClick cid m)).live = [] := by
    rw [hfire.2.2.2.2.2.2.2.1]
    exact clearCurrentInterval_live_nil _ hinv1 hinv2
  refine ⟨?_, ?_, ?_, ?_⟩
  · show (gameOverEffect (levelCompletionEffect (handleCharacterClick cid m))).gameState.gameOver
      = true
    rw [gameOverEffect_gameState]
    exact hfire.1
  · show (gameOverEffect (levelCompletionEffect (handleCharacterClick cid m))).gameState.timeLeft
      = m.gameState.timeLeft
    rw [gameOverEffect_gameState, hfire.2.2.1, hf1]
  · show (gameOverEffect (levelCompletionEffect (handleCharacterClick cid m))).gameState.score =
      (handleCharacterClick cid m).gameState.score + (m.gameState.timeLeft : ℤ) * 10
    rw [gameOverEffect_gameState, hfire.2.2.2.1, hf1]
  · exact gameOverEffect_live_nil _ hlcnil

/-! Section: Claim C1: high-score persistence on round end -/

/-- Start a round with stored high score "0", find one target (+100), then
let the timer run out: the round ends over-lost with score 100. -/
def c1events : List Event :=
  Event.start :: Event.click "goofy-0" :: List.replicate 60 (Event.tick 0)

def c1M : Machine := runEvents r0 (initialMachine (some "0")) c1events

/-- C1 as stated is false: a round that ends over-lost (timer at 0) with
final score 100 strictly above the stored high score 0 leaves the store at
"0"; the store does not end holding max(V, S) on the over-lost transition. -/
theorem c1_counterexample :
    c1M.gameState.gameOver = true ∧ c1M.gameState.timeLeft = 0 ∧
    c1M.gameState.score = 100 ∧ c1M.highScore = some 0 ∧ c1M.store = some "0" ∧
    c1M.store ≠ some (toString (max (0 : ℤ) c1M.gameState.score)) := by
  decide

/-- C1 amended: the high score is persisted only on the over-won
transition, where the store does end holding max(V, S); the over-lost
transition (a tick with at most one second left) never writes the store. -/
theorem c1_highscore_amended :
    (∀ (m : Machine) (V : ℤ), m.gameState.gameStarted = true →
      m.gameState.gameOver = false → allGoofysFound m.characters = true →
      m.highScore = some V → m.store = some (toString V) →
      (levelCompletionEffect m).store =
        some (toString (max V (m.gameState.score + (m.gameState.timeLeft : ℤ) * 10)))) ∧
    (∀ (rand : ℕ → ℚ) (m : Machine) (t : ℕ), Reachable rand m →
      m.gameState.timeLeft ≤ 1 → (step rand (Event.tick t) m).store = m.store) := by
  constructor
  · intro m V h1 h2 h3 h4 h5
    have hfire := levelCompletionEffect_fire m h1 h2 h3
    rw [hfire.2.2.2.2.2.2.2.2.2, h4]
    by_cases hvs : V < m.gameState.score + (m.gameState.timeLeft : ℤ) * 10
    · rw [if_pos (by simp [jsGt, hvs]), max_eq_right hvs.le]
    · rw [if_neg (by simp [jsGt, hvs]), h5, max_eq_left (not_lt.mp hvs)]
  · intro rand m t hre hl
    exact step_tick_store_of_timeout rand m t hre hl

/-- An active state holding one found target, stored high score 0. -/
def c1WitnessM : Machine :=
  { initialMachine (some "0") with
    gameState := { initialGameState with gameStarted := true, score := 100, timeLeft := 45 }
    characters :=
      [{ id := "goofy-0", x := 5, y := 15, isGoofy := true, isFound := true,
         emoji := GOOFY_EMOJI }] }

/-- A reachable active state one tick before timeout. -/
def c1TimeoutM : Machine :=
  runEvents r0 (step r0 Event.start (initialMachine none)) (List.replicate 59 (Event.tick 0))

theorem c1_highscore_amended_witness :
    (levelCompletionEffect c1WitnessM).store =
      some (toString (max (0 : ℤ)
        (c1WitnessM.gameState.score + (c1WitnessM.gameState.timeLeft : ℤ) * 10))) ∧
    (step r0 (Event.tick 0) c1TimeoutM).store = c1TimeoutM.store := by
  have hre : Reachable r0 c1TimeoutM :=
    reachable_runEvents_free r0 _
      (Reachable.next (Reachable.init none) (by rfl))
      (List.replicate 59 (Event.tick 0))
      (by
        intro e he m'
        rw [List.eq_of_mem_replicate he]
        trivial)
  exact ⟨c1_highscore_amended.1 c1WitnessM 0 rfl rfl (by decide) (by decide) (by decide),
    c1_highscore_amended.2 r0 c1TimeoutM 0 hre (by decide)⟩

/-! Section: Claim C2: at most one live timer per session -/

/-- C2: in every reachable state at most one interval is live, a live interval
is the one `timerRef` points at (so no stale timer can ever fire), a live
interval exists only while the round is active (every path leaving the
active state cancelled it), and when a start or next-level transition is
taken the freshly installed interval is the only live one. -/
theorem c2_single_timer : ∀ (rand : ℕ → ℚ) (m : Machine), Reachable rand m →
    m.live.length ≤ 1 ∧
    (∀ t ∈ m.live, m.timerRef = some t) ∧
    (m.live ≠ [] → m.gameState.gameStarted = true ∧ m.gameState.gameOver = false) ∧
    (m.gameState.gameStarted = false → (step rand Event.start m).live = [m.nextId]) ∧
    (m.gameState.gameOver = true → (step rand Event.nextLevelEv m).live = [m.nextId]) := by
  intro rand m hre
  obtain ⟨h1, h2, h3⟩ := reachable_timerInv rand m hre
  refine ⟨h1, h2, h3, ?_, ?_⟩
  · intro hs
    have hlive : m.live = [] := by
      by_contra hne
      have hc := (h3 hne).1
      rw [hs] at hc
      exact Bool.noConfusion hc
    rw [step_start_eq]
    show m.nextId :: m.live = [m.nextId]
    rw [hlive]
  · intro ho
    have hlive : m.live = [] := by
      by_contra hne
      have hc := (h3 hne).2
      rw [ho] at hc
      exact Bool.noConfusion hc
    rw [step_nextLevel_eq]
    show m.nextId :: m.live = [m.nextId]
    rw [hlive]

/-- A session state with a round running (one live timer). -/
def c2M : Machine := step r0 Event.start (initialMachine none)

theorem c2_single_timer_witness :
    c2M.live.length ≤ 1 ∧ (∀ t ∈ c2M.live, c2M.timerRef = some t) ∧
    (c2M.gameState.gameOver = true → (step r0 Event.nextLevelEv c2M).live = [c2M.nextId]) := by
  have h := c2_single_timer r0 c2M (Reachable.next (Reachable.init none) (by rfl))
  exact ⟨h.1, h.2.1, h.2.2.2.2⟩

/-! Section: Claim C3: when the level counter moves -/

/-- Easy round won immediately: no next-level event occurs, yet the level
counter is already 2 after the win. -/
def c3events : List Event :=
  [Event.setDifficulty Difficulty.easy, Event.start, Event.click "goofy-0",
    Event.click "goofy-1", Event.click "goofy-2"]

def c3M : Machine := runEvents r0 (initialMachine none) c3events

/-- C3 as stated is false: the run `c3events` contains no next-level
transition, yet the level counter is incremented (to 2) on the transition
into over-won; the next-level transition itself leaves the counter at 2. -/
theorem c3_counterexample :
    c3M.gameState.gameOver = true ∧ 0 < c3M.gameState.timeLeft ∧
    c3M.gameState.level = 2 ∧
    (step r0 Event.nextLevelEv c3M).gameState.level = 2 := by
  decide

/-- C3 amended: the level counter is incremented on the win transition
(entry into over-won), not on next-level; the start and next-level
transitions keep the level and the cumulative score, reset the timer to 60
seconds and install a fresh entity set whose found flags are all false. -/
theorem c3_level_amended :
    (∀ (rand : ℕ → ℚ) (m : Machine),
      (step rand Event.nextLevelEv m).gameState.level = m.gameState.level ∧
      (step rand Event.nextLevelEv m).gameState.score = m.gameState.score ∧
      (step rand Event.nextLevelEv m).gameState.timeLeft = GAME_DURATION ∧
      (step rand Event.nextLevelEv m).characters =
        generateCharacters rand m.randUsed m.gameState.difficulty m.gameState.level ∧
      ∀ c ∈ (step rand Event.nextLevelEv m).characters, c.isFound = false) ∧
    (∀ (rand : ℕ → ℚ) (m : Machine),
      (step rand Event.start m).gameState.level = m.gameState.level ∧
      (step rand Event.start m).gameState.score = m.gameState.score ∧
      (step rand Event.start m).gameState.timeLeft = GAME_DURATION ∧
      (step rand Event.start m).characters =
        generateCharacters rand m.randUsed m.gameState.difficulty m.gameState.level ∧
      ∀ c ∈ (step rand Event.start m).characters, c.isFound = false) ∧
    (∀ m : Machine, m.gameState.gameStarted = true → m.gameState.gameOver = false →
      allGoofysFound m.characters = true →
      (levelCompletionEffect m).gameState.level = m.gameState.level + 1) := by
  refine ⟨?_, ?_, ?_⟩
  · intro rand m
    rw [step_nextLevel_eq]
    exact ⟨rfl, rfl, rfl, rfl, generateCharacters_isFound rand _ _ _⟩
  · intro rand m
    rw [step_start_eq]
    exact ⟨rfl, rfl, rfl, rfl, generateCharacters_isFound rand _ _ _⟩
  · intro m h1 h2 h3
    exact (levelCompletionEffect_fire m h1 h2 h3).2.2.2.2.1

/-- An active state holding one found target. -/
def c3WitnessM : Machine :=
  { initialMachine none with
    gameState := { initialGameState with gameStarted := true }
    characters :=
      [{ id := "goofy-0", x := 5, y := 15, isGoofy := true, isFound := true,
         emoji := GOOFY_EMOJI }] }

theorem c3_level_amended_witness :
    (step r0 Event.nextLevelEv c3M).gameState.level = c3M.gameState.level ∧
    (step r0 Event.start c3M).gameState.score = c3M.gameState.score ∧
    (levelCompletionEffect c3WitnessM).gameState.level = c3WitnessM.gameState.level + 1 :=
  ⟨(c3_level_amended.1 r0 c3M).1, (c3_level_amended.2.1 r0 c3M).2.1,
    c3_level_amended.2.2 c3WitnessM rfl rfl (by decide)⟩

/-! Section: Claim C4: reading the persisted high score -/

/-- C4 is right about the intent but the code is wrong: an absent key and
the empty string read as 0 (the `|| '0'` fallback), but a non-empty
non-numeric stored value such as "abc" reads as `parseInt("abc") = NaN`
(modelled `none`), a non-integer value; every later `newScore > highScore`
comparison against that `NaN` is then false, so the high score can never
be updated again. -/
theorem c4_parseInt_malformed :
    readHighScore (some "abc") = none ∧
    readHighScore none = some 0 ∧
    readHighScore (some "") = some 0 ∧
    readHighScore (some "42") = some 42 ∧
    jsGt 100 (readHighScore (some "abc")) = false := by
  decide

/-! Section: Claim C5: the win transition and its scoring -/

/-- Easy round: 15 ticks (45 seconds left), then the three targets. -/
def c5events : List Event :=
  Event.setDifficulty Difficulty.easy :: Event.start ::
    (List.replicate 15 (Event.tick 0) ++
      [Event.click "goofy-0", Event.click "goofy-1", Event.click "goofy-2"])

def c5M : Machine := runEvents r0 (initialMachine none) c5events

/-- C5: while active, the click that completes the target set immediately ends
the round over-won: time is frozen at its current value, the timer is
stopped, and exactly `10 * remaining_seconds` is added on top of the
post-click score.  Concretely, on easy at level 1 (20 entities, 3
targets), finding the three targets with 45 seconds left yields
`3*100*1 + 45*10 = 750`. -/
theorem c5_win_transition :
    (∀ (rand : ℕ → ℚ) (m : Machine) (cid : String), Reachable rand m →
      m.gameState.gameStarted = true → m.gameState.gameOver = false →
      allGoofysFound (handleCharacterClick cid m).characters = true →
      (step rand (Event.click cid) m).gameState.gameOver = true ∧
      (step rand (Event.click cid) m).gameState.timeLeft = m.gameState.timeLeft ∧
      (step rand (Event.click cid) m).gameState.score =
        (handleCharacterClick cid m).gameState.score + (m.gameState.timeLeft : ℤ) * 10 ∧
      (step rand (Event.click cid) m).live = []) ∧
    (c5M.gameState.score = 750 ∧ c5M.gameState.timeLeft = 45 ∧
      c5M.gameState.gameOver = true ∧ c5M.characters.length = 20 ∧
      (c5M.characters.filter fun c => c.isGoofy).length = 3) := by
  constructor
  · intro rand m cid hre hs ho hwin
    exact step_click_win rand m cid hre hs ho hwin
  · decide

/-- The reachable state right before the final target is clicked. -/
def c5Pre : Machine :=
  runEvents r0 (initialMachine none)
    (Event.setDifficulty Difficulty.easy :: Event.start ::
      (List.replicate 15 (Event.tick 0) ++ [Event.click "goofy-0", Event.click "goofy-1"]))

theorem c5_win_transition_witness :
    (step r0 (Event.click "goofy-2") c5Pre).gameState.gameOver = true ∧
    (step r0 (Event.click "goofy-2") c5Pre).gameState.timeLeft = c5Pre.gameState.timeLeft ∧
    (step r0 (Event.click "goofy-2") c5Pre).gameState.score =
      (handleCharacterClick "goofy-2" c5Pre).gameState.score +
        (c5Pre.gameState.timeLeft : ℤ) * 10 ∧
    (step r0 (Event.click "goofy-2") c5Pre).live = [] := by
  have h1 : Reachable r0 (step r0 (Event.setDifficulty Difficulty.easy) (initialMachine none)) :=
    Reachable.next (Reachable.init none) (by rfl)
  have h2 : Reachable r0 (step r0 Event.start
      (step r0 (Event.setDifficulty Difficulty.easy) (initialMachine none))) :=
    Reachable.next h1 (by rfl)
  have hfree : ∀ e ∈ List.replicate 15 (Event.tick 0) ++
      [Event.click "goofy-0", Event.click "goofy-1"], ∀ m' : Machine, Enabled e m' := by
    intro e he m'
    rcases List.mem_append.mp he with hrep | hcl
    · rw [List.eq_of_mem_replicate hrep]
      trivial
    · simp only [List.mem_cons, List.not_mem_nil, or_false] at hcl
      rcases hcl with rfl | rfl <;> trivial
  have h3 : Reachable r0 c5Pre := by
    unfold c5Pre
    rw [runEvents_cons, runEvents_cons]
    exact reachable_runEvents_free r0 _ h2 _ hfree
  exact c5_win_transition.1 r0 c5Pre "goofy-2" h3 (by decide) (by decide) (by decide)

/-! Section: Claim C6: click semantics and score floor -/

/-- C6: click semantics in the active state (with the generated ids unique):
an unfound target adds `100 * level` and is marked found; an unfound
non-target costs 25 clamped at 0, is not marked found and the entity list
is unchanged (so it stays clickable); a click on an id whose entity is
already found (or on an unknown id) is a no-op; and any sequence of click
events keeps the score non-negative. -/
theorem c6_click_rules :
    (∀ (m : Machine) (cid : String) (c : Character),
      m.gameState.gameStarted = true → m.gameState.gameOver = false →
      (m.characters.map Character.id).Nodup → c ∈ m.characters → c.id = cid →
      c.isFound = false → c.isGoofy = true →
      (handleCharacterClick cid m).gameState =
        { m.gameState with score := m.gameState.score + 100 * (m.gameState.level : ℤ) } ∧
      (handleCharacterClick cid m).characters =
        m.characters.map fun d => if d.id = cid then { d with isFound := true } else d) ∧
    (∀ (m : Machine) (cid : String) (c : Character),
      m.gameState.gameStarted = true → m.gameState.gameOver = false →
      (m.characters.map Character.id).Nodup → c ∈ m.characters → c.id = cid →
      c.isFound = false → c.isGoofy = false →
      (handleCharacterClick cid m).gameState =
        { m.gameState with score := max 0 (m.gameState.score - 25) } ∧
      (handleCharacterClick cid m).characters = m.characters) ∧
    (∀ (m : Machine) (cid : String),
      (∀ d ∈ m.characters, d.id = cid → d.isFound = true) →
      handleCharacterClick cid m = m) ∧
    (∀ (rand : ℕ → ℚ) (m : Machine) (cids : List String), 0 ≤ m.gameState.score →
      0 ≤ (runEvents rand m (cids.map Event.click)).gameState.score) := by
  refine ⟨?_, ?_, ?_, ?_⟩
  · intro m cid c hs ho hnd hc hid hnf hg
    unfold handleCharacterClick
    rw [if_neg (by simp [hs, ho])]
    rw [clickFold_goofy cid m.gameState.level m.gameState.score m.characters hnd c hc hid hnf hg]
    exact ⟨rfl, rfl⟩
  · intro m cid c hs ho hnd hc hid hnf hg
    unfold handleCharacterClick
    rw [if_neg (by simp [hs, ho])]
    rw [clickFold_wrong cid m.gameState.level m.gameState.score m.characters hnd c hc hid hnf hg]
    exact ⟨rfl, rfl⟩
  · intro m cid hfound
    unfold handleCharacterClick
    split
    · rfl
    · rw [clickFold_noop cid m.gameState.level m.gameState.score m.characters hfound]
  · intro rand m cids h
    exact runEvents_clicks_score_nonneg rand cids m h

/-- An unfound target, an unfound non-target, a found non-target. -/
def c6g : Character :=
  { id := "g", x := 5, y := 15, isGoofy := true, isFound := false, emoji := GOOFY_EMOJI }

def c6w : Character :=
  { id := "w", x := 6, y := 16, isGoofy := false, isFound := false, emoji := "👤" }

def c6f : Character :=
  { id := "f", x := 7, y := 17, isGoofy := false, isFound := true, emoji := "🧑" }

/-- An active state with score 0 and the three entities above. -/
def c6M : Machine :=
  { initialMachine none with
    gameState := { initialGameState with gameStarted := true }
    characters := [c6g, c6w, c6f] }

theorem c6_click_rules_witness :
    (handleCharacterClick "g" c6M).gameState =
      { c6M.gameState with score := c6M.gameState.score + 100 * (c6M.gameState.level : ℤ) } ∧
    (handleCharacterClick "w" c6M).gameState =
      { c6M.gameState with score := max 0 (c6M.gameState.score - 25) } ∧
    (handleCharacterClick "w" c6M).characters = c6M.characters ∧
    handleCharacterClick "f" c6M = c6M ∧
    0 ≤ (runEvents r0 c6M (["w", "w", "g", "f"].map Event.click)).gameState.score := by
  refine ⟨?_, ?_, ?_, ?_, ?_⟩
  · exact (c6_click_rules.1 c6M "g" c6g rfl rfl (by decide) (by decide) rfl rfl rfl).1
  · exact (c6_click_rules.2.1 c6M "w" c6w rfl rfl (by decide) (by decide) rfl rfl rfl).1
  · exact (c6_click_rules.2.1 c6M "w" c6w rfl rfl (by decide) (by decide) rfl rfl rfl).2
  · exact c6_click_rules.2.2.1 c6M "f" (by decide)
  · exact c6_click_rules.2.2.2 r0 c6M ["w", "w", "g", "f"] (by decide)

/-! Section: Claim C7: the finished round is frozen -/

/-- C7: once a reachable state is over, no timer is live any more (over and an
actively counting interval are mutually exclusive), and neither a tick of
any timer id nor a click changes the remaining time or the score. -/
theorem c7_over_frozen : ∀ (rand : ℕ → ℚ) (m : Machine), Reachable rand m →
    m.gameState.gameOver = true →
    m.live = [] ∧
    (∀ t, (step rand (Event.tick t) m).gameState.timeLeft = m.gameState.timeLeft) ∧
    (∀ t, (step rand (Event.tick t) m).gameState.score = m.gameState.score) ∧
    (∀ cid, (step rand (Event.click cid) m).gameState.score = m.gameState.score) := by
  intro rand m hre hov
  obtain ⟨h1, h2, h3⟩ := reachable_timerInv rand m hre
  have hlive : m.live = [] := by
    by_contra hne
    have hc := (h3 hne).2
    rw [hov] at hc
    exact Bool.noConfusion hc
  obtain ⟨hta, htb⟩ := step_gameState_of_over rand m hov
  refine ⟨hlive, ?_, ?_, ?_⟩
  · intro t
    rw [hta t (by rw [hlive]; exact List.not_mem_nil t)]
  · intro t
    rw [hta t (by rw [hlive]; exact List.not_mem_nil t)]
  · intro cid
    rw [htb cid]

/-- A finished (over-won) reachable session state. -/
def c7M : Machine :=
  runEvents r0 (initialMachine none)
    (Event.setDifficulty Difficulty.easy :: Event.start ::
      [Event.click "goofy-0", Event.click "goofy-1", Event.click "goofy-2"])

theorem c7_over_frozen_witness :
    c7M.live = [] ∧
    (step r0 (Event.tick 0) c7M).gameState.timeLeft = c7M.gameState.timeLeft ∧
    (step r0 (Event.click "goofy-0") c7M).gameState.score = c7M.gameState.score := by
  have h1 : Reachable r0 (step r0 (Event.setDifficulty Difficulty.easy) (initialMachine none)) :=
    Reachable.next (Reachable.init none) (by rfl)
  have h2 : Reachable r0 (step r0 Event.start
      (step r0 (Event.setDifficulty Difficulty.easy) (initialMachine none))) :=
    Reachable.next h1 (by rfl)
  have hfree : ∀ e ∈ [Event.click "goofy-0", Event.click "goofy-1", Event.click "goofy-2"],
      ∀ m' : Machine, Enabled e m' := by
    intro e he m'
    simp only [List.mem_cons, List.not_mem_nil, or_false] at he
    rcases he with rfl | rfl | rfl <;> trivial
  have h3 : Reachable r0 c7M := by
    unfold c7M
    rw [runEvents_cons, runEvents_cons]
    exact reachable_runEvents_free r0 _ h2 _ hfree
  have h := c7_over_frozen r0 c7M h3 (by decide)
  exact ⟨h.1, h.2.1 0, h.2.2.2 "goofy-0"⟩

/-! Section: Claim C8: generator entity and target counts -/

/-- C8: for every tier and level at least 1, the generator produces exactly
`min(baseCount + 5*(level-1), 80)` entities of which exactly
`min(baseTargets + floor((level-1)/2), 12)` are targets; hence at most 12
targets among at most 80 entities, targets never outnumbering entities. -/
theorem c8_generator_counts : ∀ (rand : ℕ → ℚ) (b : ℕ) (d : Difficulty) (lv : ℕ), 1 ≤ lv →
    (generateCharacters rand b d lv).length =
      min ((DIFFICULTIES d).totalCharacters + 5 * (lv - 1)) 80 ∧
    ((generateCharacters rand b d lv).filter fun c => c.isGoofy).length =
      min ((DIFFICULTIES d).goofyCount + (lv - 1) / 2) 12 ∧
    ((generateCharacters rand b d lv).filter fun c => c.isGoofy).length ≤ 12 ∧
    (generateCharacters rand b d lv).length ≤ 80 ∧
    ((generateCharacters rand b d lv).filter fun c => c.isGoofy).length ≤
      (generateCharacters rand b d lv).length := by
  intro rand b d lv hlv
  rw [generateCharacters_length, generateCharacters_goofy_length]
  refine ⟨?_, rfl, min_le_right _ 12, min_le_right _ 80, goofyTargetCount_le_total d lv⟩
  unfold totalCharacterCount
  omega

theorem c8_generator_counts_witness :
    (generateCharacters r0 0 Difficulty.hard 4).length =
      min ((DIFFICULTIES Difficulty.hard).totalCharacters + 5 * (4 - 1)) 80 ∧
    ((generateCharacters r0 0 Difficulty.hard 4).filter fun c => c.isGoofy).length =
      min ((DIFFICULTIES Difficulty.hard).goofyCount + (4 - 1) / 2) 12 :=
  ⟨(c8_generator_counts r0 0 Difficulty.hard 4 (by decide)).1,
    (c8_generator_counts r0 0 Difficulty.hard 4 (by decide)).2.1⟩

/-! Section: Claim C9: reset returns to idle, keeping only the difficulty -/

/-- C9: a full reset event, from any state: the machine is idle again with
score 0, level 1, a full 60-second timer, no entities and a hidden scope;
of the round state only the difficulty tier is carried over. -/
theorem c9_reset_idle : ∀ (rand : ℕ → ℚ) (m : Machine),
    (step rand Event.reset m).gameState =
      { score := 0, timeLeft := 60, gameStarted := false, gameOver := false,
        difficulty := m.gameState.difficulty, level := 1 } ∧
    (step rand Event.reset m).characters = [] ∧
    (step rand Event.reset m).scopeVisible = false := by
  intro rand m
  rw [step_reset_eq]
  exact ⟨rfl, rfl, rfl⟩

/-- A mid-round machine to reset. -/
def c9M : Machine := step r0 Event.start (initialMachine none)

theorem c9_reset_idle_witness :
    (step r0 Event.reset c9M).gameState =
      { score := 0, timeLeft := 60, gameStarted := false, gameOver := false,
        difficulty := c9M.gameState.difficulty, level := 1 } ∧
    (step r0 Event.reset c9M).characters = [] ∧
    (step r0 Event.reset c9M).scopeVisible = false :=
  c9_reset_idle r0 c9M

/-! Section: Claim C10: no vacuous win on an empty entity list -/

/-- C10: the win condition requires a non-empty entity list: on any active
state with no entities the level-completion effect is the identity, so a
round never ends over-won by vacuity. -/
theorem c10_empty_no_win : ∀ m : Machine, m.gameState.gameStarted = true →
    m.gameState.gameOver = false → m.characters = [] →
    levelCompletionEffect m = m := by
  intro m hs ho hc
  apply levelCompletionEffect_of_not_allFound
  rw [hc]
  rfl

/-- An active state with an empty entity list. -/
def c10M : Machine :=
  { initialMachine none with gameState := { initialGameState with gameStarted := true } }

theorem c10_empty_no_win_witness : levelCompletionEffect c10M = c10M :=
  c10_empty_no_win c10M rfl rfl rfl

end FindGoofy
